import Mathlib

/-!
Shallow embedding of the request-gating core of the gjallarhorn feedback
API: the JWKS signing-key cache and token validation (src/auth/mod.rs), the
fixed-window rate limiter (src/middleware.rs), and the router assembly
(src/main.rs).

Modelling conventions: time is in whole seconds as `Nat` (std::time::Instant
is monotone, so an elapsed duration is `now - earlier`); HTTP status codes
are `Nat`; RSA key material is abstract (a `Nat` identifier); the outcome of
the HTTP GET plus JSON parse against the identity provider is a parameter
(`net`), and the outcome of `DecodingKey::from_rsa_components` is a
parameter (`from_rsa`), since both are external effects.  Behaviour of the
external crates at the boundary (jsonwebtoken validation defaults,
http::HeaderValue::to_str) is embedded from those crates as documented on
the relevant definitions.
-/

deriving instance DecidableEq for Except

namespace Gjallarhorn

/-! ## Rate limiter (src/middleware.rs) -/

/-- Per-client fixed-window state stored in RATE_LIMIT_MAP:
`(request_count, window_start)`. -/
structure RateWindow where
  count : Nat
  window_start : Nat
deriving DecidableEq, Repr

/-- The window-reset step shared by both rate-limit middlewares
(src/middleware.rs lines 56-59 and 88-91): if the elapsed time since
`window_start` strictly exceeds the window length, the counter is reset to 0
and the window restarts at `now`. -/
def resetIfStale (window : Nat) (e : RateWindow) (now : Nat) : RateWindow :=
  if window < now - e.window_start then ⟨0, now⟩ else e

/-- One pass of a rate-limit middleware over a single client entry
(src/middleware.rs lines 52-70 and 84-103): reset the window when stale,
then reject without incrementing when `count >= limit`, otherwise increment
and admit.  Returns `(admitted, updated entry)`.  A client with no entry
starts from `⟨0, now⟩` (`or_insert((0, now))`). -/
def rate_limit_step (limit window : Nat) (e : RateWindow) (now : Nat) :
    Bool × RateWindow :=
  let e2 := resetIfStale window e now
  if limit ≤ e2.count then (false, e2)
  else (true, ⟨e2.count + 1, e2.window_start⟩)

/-- General class limit: 100 requests (src/middleware.rs line 62). -/
def general_limit : Nat := 100

/-- General class window: 1 second (src/middleware.rs line 56). -/
def general_window : Nat := 1

/-- Sensitive (auth) class limit: 5 requests (src/middleware.rs line 94). -/
def auth_limit : Nat := 5

/-- Sensitive (auth) class window: 60 seconds (src/middleware.rs line 88). -/
def auth_window : Nat := 60

/-- StatusCode::UNAUTHORIZED. -/
def UNAUTHORIZED : Nat := 401

/-- StatusCode::TOO_MANY_REQUESTS. -/
def TOO_MANY_REQUESTS : Nat := 429

/-- rate_limit_middleware for one client entry: `Except.error` is the 429
rejection response, `Except.ok` continues into `next.run`. -/
def rate_limit_middleware (e : RateWindow) (now : Nat) :
    Except Nat Unit × RateWindow :=
  match rate_limit_step general_limit general_window e now with
  | (true, e2) => (.ok (), e2)
  | (false, e2) => (.error TOO_MANY_REQUESTS, e2)

/-- auth_rate_limit_middleware for one client entry (key `auth_` ++ ip). -/
def auth_rate_limit_middleware (e : RateWindow) (now : Nat) :
    Except Nat Unit × RateWindow :=
  match rate_limit_step auth_limit auth_window e now with
  | (true, e2) => (.ok (), e2)
  | (false, e2) => (.error TOO_MANY_REQUESTS, e2)

/-- Sequential requests from one client against its entry, at the given
sequence of timestamps; returns the admission verdicts and final entry. -/
def run_requests (limit window : Nat) (e : RateWindow) :
    List Nat → List Bool × RateWindow
  | [] => ([], e)
  | t :: ts =>
    let r := rate_limit_step limit window e t
    let rest := run_requests limit window r.2 ts
    (r.1 :: rest.1, rest.2)

/-! ## JWKS signing-key cache (src/auth/mod.rs) -/

/-- Opaque RSA decoding-key material (jsonwebtoken::DecodingKey), abstract. -/
abbrev DecodingKey := Nat

/-- HashMap from kid to DecodingKey, as an association list; an insert
shadows any earlier binding, and `get` takes the most recent binding,
matching HashMap insert/get semantics. -/
abbrev KeyMap := List (String × DecodingKey)

/-- HashMap::get. -/
def KeyMap.get : KeyMap → String → Option DecodingKey
  | [], _ => none
  | (k, v) :: rest, kid => if k = kid then some v else KeyMap.get rest kid

/-- HashMap::insert (the new binding shadows any earlier one). -/
def KeyMap.insert (m : KeyMap) (kid : String) (v : DecodingKey) : KeyMap :=
  (kid, v) :: m

/-- JwksCache: keys, last_update instant, ttl duration (src/auth/mod.rs
lines 31-35). -/
structure JwksCache where
  keys : KeyMap
  last_update : Nat
  ttl : Nat
deriving DecidableEq, Repr

/-- JwksCache::is_expired: `last_update.elapsed() > ttl`, i.e. staleness
holds exactly when the elapsed time strictly exceeds the ttl
(src/auth/mod.rs lines 46-48). -/
def JwksCache.is_expired (c : JwksCache) (now : Nat) : Bool :=
  decide (c.ttl < now - c.last_update)

/-- One entry of the JWKS document: kid, the `use` field, RSA components
(src/auth/mod.rs lines 56-63). -/
structure JwkKey where
  kid : String
  key_use : Option String
  n : String
  e : String
deriving DecidableEq, Repr

/-- The key-construction loop of fetch_jwks (src/auth/mod.rs lines 89-101):
keep entries whose `use` field is `"sig"` or absent; an entry whose RSA
components do not convert (`from_rsa` returns none) is logged and skipped
without aborting the loop. -/
def build_keys (from_rsa : String → String → Option DecodingKey)
    (ks : List JwkKey) : KeyMap :=
  ks.foldl (fun m key =>
    if key.key_use = some "sig" ∨ key.key_use = none then
      match from_rsa key.n key.e with
      | some decoding_key => m.insert key.kid decoding_key
      | none => m
    else m) []

/-- fetch_jwks (src/auth/mod.rs lines 74-104), given `net`, the combined
outcome of the HTTP GET and the JSON parse: either of those failing is the
`Except.error` case (the two map_err branches); on success the parsed key
list is filtered into a key map. -/
def fetch_jwks (from_rsa : String → String → Option DecodingKey)
    (net : Except String (List JwkKey)) : Except String KeyMap :=
  match net with
  | .error msg => .error msg
  | .ok ks => .ok (build_keys from_rsa ks)

/-- Result of one get_decoding_key call: the returned value, the cache
afterwards, and how many fetch_jwks calls were made. -/
structure LookupOutcome where
  result : Except String DecodingKey
  cache : JwksCache
  fetch_count : Nat
deriving DecidableEq, Repr

/-- AuthState::get_decoding_key (src/auth/mod.rs lines 106-132): if the
cache is not expired and holds kid, return that key with no fetch;
otherwise fetch once; a fetch error propagates; otherwise kid is looked up
in the fetched map, and only when it is found is the cache replaced (keys
and last_update); when it is absent the call fails and the cache is left
as it was. -/
def get_decoding_key (from_rsa : String → String → Option DecodingKey)
    (net : Except String (List JwkKey)) (cache : JwksCache) (now : Nat)
    (kid : String) : LookupOutcome :=
  let hit := if cache.is_expired now then none else KeyMap.get cache.keys kid
  match hit with
  | some key => ⟨.ok key, cache, 0⟩
  | none =>
    match fetch_jwks from_rsa net with
    | .error msg => ⟨.error msg, cache, 1⟩
    | .ok keys =>
      match KeyMap.get keys kid with
      | none => ⟨.error ("Key with kid " ++ kid ++ " not found"), cache, 1⟩
      | some key => ⟨.ok key, ⟨keys, now, cache.ttl⟩, 1⟩

/-- Modelled from the spec wording of claim C1 for comparison with
`get_decoding_key`: on the refresh path the freshly fetched, filtered key
set always replaces the cache with fetched_at = now, and kid is then looked
up in the new set, failing with KeyNotFound if still absent. -/
def get_decoding_key_spec (from_rsa : String → String → Option DecodingKey)
    (net : Except String (List JwkKey)) (cache : JwksCache) (now : Nat)
    (kid : String) : LookupOutcome :=
  let hit := if cache.is_expired now then none else KeyMap.get cache.keys kid
  match hit with
  | some key => ⟨.ok key, cache, 0⟩
  | none =>
    match fetch_jwks from_rsa net with
    | .error msg => ⟨.error msg, cache, 1⟩
    | .ok keys =>
      let cache2 : JwksCache := ⟨keys, now, cache.ttl⟩
      match KeyMap.get keys kid with
      | none => ⟨.error ("Key with kid " ++ kid ++ " not found"), cache2, 1⟩
      | some key => ⟨.ok key, cache2, 1⟩

/-! ## Token validation (src/auth/mod.rs lines 134-153) -/

/-- JWT signing algorithm named in the token header. -/
inductive Alg where
  | RS256
  | other (name : String)
deriving DecidableEq, Repr

/-- The decoded JWT header: algorithm and optional kid. -/
structure TokenHeader where
  alg : Alg
  kid : Option String
deriving DecidableEq, Repr

/-- Claims (src/auth/mod.rs lines 14-22). -/
structure Claims where
  sub : String
  email : Option String
  preferred_username : Option String
  exp : Nat
  iat : Nat
  iss : String
deriving DecidableEq, Repr

/-- A bearer token as relevant to validation: `header` is the outcome of
jsonwebtoken::decode_header (none when the header cannot be parsed), the
deserialized claims, and the outcome of RSA signature verification as a
function of the key used (external crypto, hence a parameter of the
token). -/
structure Token where
  header : Option TokenHeader
  claims : Claims
  sig_valid : DecodingKey → Bool

/-- Default leeway of jsonwebtoken Validation::new: 60 seconds, applied to
the exp check. -/
def leeway : Nat := 60

/-- str::replace of Rust (also the behaviour of String.replace in the
jsonwebtoken call site at src/auth/mod.rs line 146): replace every
non-overlapping occurrence of `pat`, leftmost first.  Fuel-based structural
recursion so that it evaluates; fuel `s.length` suffices since every step
consumes at least one character. -/
def replace_chars (pat rep : List Char) : Nat → List Char → List Char
  | 0, s => s
  | _ + 1, [] => []
  | fuel + 1, c :: rest =>
    if pat ≠ [] ∧ pat.isPrefixOf (c :: rest) then
      rep ++ replace_chars pat rep fuel ((c :: rest).drop pat.length)
    else
      c :: replace_chars pat rep fuel rest

/-- str::replace on strings. -/
def rust_replace (s pat rep : String) : String :=
  ⟨replace_chars pat.data rep.data s.data.length s.data⟩

/-- The issuers accepted by validate_token (src/auth/mod.rs lines 145-147):
the configured keycloak URL and its localhost alias obtained by replacing
`keycloak:8180` with `localhost:8180`. -/
def accepted_issuers (keycloak_url : String) : List String :=
  [keycloak_url, rust_replace keycloak_url "keycloak:8180" "localhost:8180"]

/-- jsonwebtoken::decode with `Validation::new(Algorithm::RS256)` and
`set_issuer`: the header algorithm must be RS256, the RSA signature must
verify under `key`, exp is validated with the default 60 second leeway
(expired exactly when `exp < now - leeway`), and iss must be one of the
configured issuers.  The relative order of the failure branches is not
observable through this API (every failure is mapped to the same response
downstream). -/
def decode_jwt (t : Token) (key : DecodingKey) (issuers : List String)
    (now : Nat) : Except String Claims :=
  match t.header with
  | none => .error "InvalidToken"
  | some h =>
    if h.alg ≠ .RS256 then .error "InvalidAlgorithm"
    else if t.sig_valid key = false then .error "InvalidSignature"
    else if t.claims.exp < now - leeway then .error "ExpiredSignature"
    else if t.claims.iss ∈ issuers then .ok t.claims
    else .error "InvalidIssuer"

/-- Result of one validate_token call: the returned value, the cache
afterwards, and how many fetch_jwks calls were made. -/
structure ValidateOutcome where
  result : Except String Claims
  cache : JwksCache
  fetch_count : Nat
deriving DecidableEq, Repr

/-- AuthState::validate_token (src/auth/mod.rs lines 134-153): decode the
header, require a kid, resolve the key through get_decoding_key, then run
jsonwebtoken::decode with RS256 and the accepted issuers. -/
def validate_token (from_rsa : String → String → Option DecodingKey)
    (net : Except String (List JwkKey)) (keycloak_url : String)
    (cache : JwksCache) (now : Nat) (t : Token) : ValidateOutcome :=
  match t.header with
  | none => ⟨.error "Invalid token header", cache, 0⟩
  | some h =>
    match h.kid with
    | none => ⟨.error "Token header missing kid", cache, 0⟩
    | some kid =>
      let lk := get_decoding_key from_rsa net cache now kid
      match lk.result with
      | .error msg => ⟨.error msg, lk.cache, lk.fetch_count⟩
      | .ok key =>
        ⟨decode_jwt t key (accepted_issuers keycloak_url) now,
         lk.cache, lk.fetch_count⟩

/-! ## Auth middleware (src/auth/mod.rs lines 156-183) -/

/-- to_str of http::HeaderValue succeeds exactly when every byte of the
value is visible ASCII (32-126) or horizontal tab (9); this is the
is_visible_ascii test of the http crate (value.rs), which admits the tab as
the one non-visible character. -/
def to_str_accepts (b : Nat) : Bool :=
  (32 ≤ b && b < 127) || b == 9

/-- The notion of a visible-ASCII string as the words of claim C9 read
(printable characters 32-126), for comparison with `to_str_accepts`. -/
def visible_ascii_string (bytes : List Nat) : Prop :=
  ∀ b ∈ bytes, 32 ≤ b ∧ b ≤ 126

/-- HeaderValue::to_str().ok(): some string on success. -/
def header_to_str (bytes : List Nat) : Option (List Nat) :=
  if bytes.all to_str_accepts then some bytes else none

/-- The bytes of the exact string `Bearer ` (capital B, single trailing
space). -/
def bearer_bytes : List Nat := [66, 101, 97, 114, 101, 114, 32]

/-- str::strip_prefix of the Bearer marker. -/
def strip_bearer (s : List Nat) : Option (List Nat) :=
  if bearer_bytes.isPrefixOf s then some (s.drop 7) else none

/-- Result of one auth_middleware call: the response (`Except.error` is the
status-code rejection, `Except.ok` carries the claims attached to the
request) and whether validate_token was ever invoked. -/
structure MwOutcome where
  status : Except Nat Claims
  validate_invoked : Bool
deriving DecidableEq, Repr

/-- auth_middleware (src/auth/mod.rs lines 156-183): missing header, a
header value rejected by to_str, or a value without the `Bearer ` marker
each return 401 before any token work; otherwise validate_token runs
(abstracted here as the `validate` function of the token bytes) and any of
its errors is mapped to 401. -/
def auth_middleware (header : Option (List Nat))
    (validate : List Nat → Except String Claims) : MwOutcome :=
  match header with
  | none => ⟨.error UNAUTHORIZED, false⟩
  | some bytes =>
    match header_to_str bytes with
    | none => ⟨.error UNAUTHORIZED, false⟩
    | some s =>
      match strip_bearer s with
      | none => ⟨.error UNAUTHORIZED, false⟩
      | some tok =>
        match validate tok with
        | .error _ => ⟨.error UNAUTHORIZED, true⟩
        | .ok c => ⟨.ok c, true⟩

/-! ## Router assembly (src/main.rs lines 66-120) -/

/-- The middleware layers of the assembled app that this development
distinguishes. -/
inductive Mw where
  | trace_http
  | cors
  | body_limit
  | metrics_mw
  | request_logging
  | rate_limit_general
  | rate_limit_auth
  | token_verify
deriving DecidableEq, Repr

/-- A route of the assembled router with its middleware chain listed in
execution order: the first element of `chain` is the outermost layer, the
one a request passes first. -/
structure RouteEntry where
  method : String
  path : String
  chain : List Mw
deriving DecidableEq, Repr

/-- Router::layer and Router::route_layer: the added middleware wraps the
existing service, so it becomes the outermost layer of every route present,
running before the layers added earlier (axum applies the last layer added
first). -/
def add_layer (rs : List RouteEntry) (m : Mw) : List RouteEntry :=
  rs.map (fun r => ⟨r.method, r.path, m :: r.chain⟩)

/-- Router::nest: prefix every route path. -/
def nest_at (pre : String) (rs : List RouteEntry) : List RouteEntry :=
  rs.map (fun r => ⟨r.method, pre ++ r.path, r.chain⟩)

/-- The five protected routes before their layers (src/main.rs lines
66-71). -/
def protected_base : List RouteEntry :=
  [⟨"POST", "/feedbacks", []⟩,
   ⟨"GET", "/feedbacks", []⟩,
   ⟨"GET", "/feedbacks/:id", []⟩,
   ⟨"GET", "/feedbacks/stats", []⟩,
   ⟨"GET", "/feedbacks/export", []⟩]

/-- protected_routes: route_layer(auth_middleware) then
layer(rate_limit_middleware) (src/main.rs lines 72-76). -/
def protected_routes : List RouteEntry :=
  add_layer (add_layer protected_base .token_verify) .rate_limit_general

/-- health_routes: health and metrics, no rate limiting (src/main.rs lines
79-82). -/
def health_routes : List RouteEntry :=
  [⟨"GET", "/health", []⟩, ⟨"GET", "/metrics", []⟩]

/-- auth_routes: login with the stricter auth rate limit (src/main.rs lines
85-88). -/
def auth_routes : List RouteEntry :=
  add_layer [⟨"POST", "/auth/login", []⟩] .rate_limit_auth

/-- public_routes = health_routes.merge(auth_routes). -/
def public_routes : List RouteEntry := health_routes ++ auth_routes

/-- The assembled app (src/main.rs lines 112-120): protected routes nested
under /api/v1, merged with the public routes, then the app-wide layers
(request logging, metrics, body limit, CORS, trace), each wrapping the
previous ones. -/
def app : List RouteEntry :=
  add_layer (add_layer (add_layer (add_layer (add_layer
    (nest_at "/api/v1" protected_routes ++ public_routes)
    .request_logging) .metrics_mw) .body_limit) .cors) .trace_http

/-- Executes a middleware chain in order.  The general limiter rejects with
429 when `rl_ok` is false, the auth limiter rejects with 429 when
`auth_rl_ok` is false, token verification rejects with 401 when
`auth_ok` is false; the remaining layers are pass-through.  Returns the
rejection status (none when the request reaches the handler) and whether
the token-verification layer was reached at all. -/
def run_chain (rl_ok auth_rl_ok auth_ok : Bool) :
    List Mw → Option Nat × Bool
  | [] => (none, false)
  | .rate_limit_general :: rest =>
    if rl_ok then run_chain rl_ok auth_rl_ok auth_ok rest
    else (some TOO_MANY_REQUESTS, false)
  | .rate_limit_auth :: rest =>
    if auth_rl_ok then run_chain rl_ok auth_rl_ok auth_ok rest
    else (some TOO_MANY_REQUESTS, false)
  | .token_verify :: rest =>
    if auth_ok then ((run_chain rl_ok auth_rl_ok auth_ok rest).1, true)
    else (some UNAUTHORIZED, true)
  | _ :: rest => run_chain rl_ok auth_rl_ok auth_ok rest

/-! ## Interleaving model of concurrent rate-limit checks (src/middleware.rs
lines 44-73)

M concurrent requests from one client race on the single DashMap entry of
that client.  DashMap.entry hands out a guard (RefMut) that holds the shard
lock for its whole lifetime, and rate_limit_middleware keeps the guard from
the entry lookup until after the increment (`drop(entry)` at line 70), so
the window reset, the read of count, the limit check and the increment all
happen under the lock.  The model makes that explicit: `acquire` takes the
lock, performs the reset and reads count; `admit` and `reject` perform the
check and (for admit) the increment and release the lock.  Any interleaving
of the micro-steps of the M requests is a run of this transition system. -/

/-- Program counter of one in-flight request. -/
inductive ReqPc where
  | start
  | checked (c : Nat)
  | done (admitted : Bool)
deriving DecidableEq

/-- Global state: who holds the entry guard, each request counter, and the
client entry of the shared map. -/
structure ConcState (M : Nat) where
  lock : Option (Fin M)
  pc : Fin M → ReqPc
  entry : RateWindow

/-- One micro-step.  `ts i` is the Instant::now() that request `i` observed
before taking the guard. -/
inductive ConcStep (limit window : Nat) {M : Nat} (ts : Fin M → Nat) :
    ConcState M → ConcState M → Prop where
  | acquire (s : ConcState M) (i : Fin M)
      (hpc : s.pc i = .start) (hlock : s.lock = none) :
      ConcStep limit window ts s
        ⟨some i,
         Function.update s.pc i
           (.checked (resetIfStale window s.entry (ts i)).count),
         resetIfStale window s.entry (ts i)⟩
  | grant (s : ConcState M) (i : Fin M) (c : Nat)
      (hpc : s.pc i = .checked c) (hlock : s.lock = some i)
      (hlt : c < limit) :
      ConcStep limit window ts s
        ⟨none, Function.update s.pc i (.done true),
         ⟨s.entry.count + 1, s.entry.window_start⟩⟩
  | reject (s : ConcState M) (i : Fin M) (c : Nat)
      (hpc : s.pc i = .checked c) (hlock : s.lock = some i)
      (hge : limit ≤ c) :
      ConcStep limit window ts s
        ⟨none, Function.update s.pc i (.done false), s.entry⟩

/-- Initial state: no request started, fresh entry (or_insert((0, ws))). -/
def ConcInit (M : Nat) (ws : Nat) : ConcState M :=
  ⟨none, fun _ => .start, ⟨0, ws⟩⟩

/-- States reachable by interleaving the M requests. -/
def ConcReach (limit window : Nat) {M : Nat} (ts : Fin M → Nat) (ws : Nat)
    (s : ConcState M) : Prop :=
  Relation.ReflTransGen (ConcStep limit window ts) (ConcInit M ws) s

/-- The requests that have been admitted. -/
def admitted_set {M : Nat} (s : ConcState M) : Finset (Fin M) :=
  Finset.univ.filter (fun i => s.pc i = .done true)

/-- The requests that have been rejected. -/
def rejected_set {M : Nat} (s : ConcState M) : Finset (Fin M) :=
  Finset.univ.filter (fun i => s.pc i = .done false)

/-! ## Concrete instances used by the witnesses and counterexamples -/

/-- A conversion outcome that always succeeds, yielding key 7. -/
def demo_from_rsa : String → String → Option DecodingKey := fun _ _ => some 7

/-- An empty, fresh cache with ttl 100. -/
def c1_cache : JwksCache := ⟨[], 0, 100⟩

/-- A provider document holding only the key `kid-b`. -/
def c1_net : Except String (List JwkKey) := .ok [⟨"kid-b", none, "n1", "e1"⟩]

/-- The configured provider URL used by the token demos. -/
def c5_url : String := "http://keycloak:8180/realms/test"

/-- A fresh cache holding `kid-1`. -/
def c5_cache : JwksCache := ⟨[("kid-1", 7)], 0, 100⟩

/-- Claims whose exp (29) is in the past at now = 30, issuer valid. -/
def c5_claims : Claims := ⟨"alice", none, none, 29, 0, c5_url⟩

/-- A token over `c5_claims` with parseable header, kid-1, and a signature
that verifies under every key. -/
def c5_token : Token := ⟨some ⟨.RS256, some "kid-1"⟩, c5_claims, fun _ => true⟩

/-- Unexpired claims issued under the localhost alias of `c5_url`. -/
def c6_claims : Claims := ⟨"bob", none, none, 50, 0, "http://localhost:8180/realms/test"⟩

/-- A valid token over `c6_claims`. -/
def c6_token : Token := ⟨some ⟨.RS256, some "kid-1"⟩, c6_claims, fun _ => true⟩

/-- Unexpired claims with an issuer matching neither accepted issuer. -/
def c6_bad_claims : Claims := ⟨"eve", none, none, 50, 0, "http://evil.example"⟩

/-- A token over `c6_bad_claims` that is valid except for its issuer. -/
def c6_bad_token : Token := ⟨some ⟨.RS256, some "kid-1"⟩, c6_bad_claims, fun _ => true⟩

/-- Expired claims (exp 30 with now 100 in the amended-C5 witness). -/
def c5b_claims : Claims := ⟨"carol", none, none, 30, 0, c5_url⟩

/-- A token over `c5b_claims` whose signature verifies under every key. -/
def c5b_token : Token := ⟨some ⟨.RS256, some "kid-1"⟩, c5b_claims, fun _ => true⟩

/-- Authorization header bytes `Bearer ` followed by a horizontal tab. -/
def tab_header : List Nat := [66, 101, 97, 114, 101, 114, 32, 9]

/-- Authorization header bytes `Basic x` (no Bearer marker). -/
def basic_header : List Nat := [66, 97, 115, 105, 99, 32, 120]

/-- A conversion outcome that fails on the RSA modulus `bad-n`. -/
def c10_from_rsa : String → String → Option DecodingKey :=
  fun n _ => if n = "bad-n" then none else some 3

/-- A provider key list with a good signature key, a key whose RSA
components do not convert, and an encryption-use key. -/
def c10_keys : List JwkKey :=
  [⟨"good", some "sig", "n1", "e1"⟩,
   ⟨"broken", none, "bad-n", "e2"⟩,
   ⟨"enc", some "enc", "n3", "e3"⟩]

/-- Final state of the two-request demo run of the concurrent model with
limit 1: request 0 admitted, request 1 rejected. -/
def conc_demo : ConcState 2 :=
  ⟨none, fun i => if i = 0 then .done true else .done false, ⟨1, 0⟩⟩

/-- Invariant of the interleaving model: the window never resets (its start
stays at ws), the shared counter counts exactly the admitted requests and
never exceeds the limit, a request that has read the counter still holds
the lock and its copy is current, and once any request has been rejected
the counter sits at the limit. -/
structure ConcInv (limit : Nat) {M : Nat} (ws : Nat) (s : ConcState M) :
    Prop where
  ws_eq : s.entry.window_start = ws
  count_eq : s.entry.count = (admitted_set s).card
  count_le : s.entry.count ≤ limit
  checked_lock : ∀ i c, s.pc i = .checked c → s.lock = some i ∧ c = s.entry.count
  reject_full : ∀ i, s.pc i = .done false → s.entry.count = limit

/-- Bool-valued failure test on a validation result. -/
def is_err : Except String Claims → Bool
  | .error _ => true
  | .ok _ => false

/-! ## Theorems -/

lemma resetIfStale_of_in_window (window : Nat) (e : RateWindow) (now : Nat)
    (h : now - e.window_start ≤ window) : resetIfStale window e now = e := by
  unfold resetIfStale
  simp [Nat.not_lt.mpr h]

lemma run_requests_all_admitted (limit window : Nat) :
    ∀ (ts : List Nat) (c t0 : Nat), (∀ t ∈ ts, t - t0 ≤ window) →
      c + ts.length ≤ limit →
      run_requests limit window ⟨c, t0⟩ ts =
        (List.replicate ts.length true, ⟨c + ts.length, t0⟩) := by
  intro ts
  induction ts with
  | nil => intro c t0 _ _; simp [run_requests]
  | cons t rest ih =>
    intro c t0 hin hle
    have hstep : rate_limit_step limit window ⟨c, t0⟩ t =
        (true, ⟨c + 1, t0⟩) := by
      unfold rate_limit_step
      rw [resetIfStale_of_in_window window ⟨c, t0⟩ t (hin t (by simp))]
      have : ¬ limit ≤ c := by simp at hle ⊢; omega
      simp [this]
    have hrest := ih (c + 1) t0 (fun x hx => hin x (by simp [hx]))
      (by simp at hle ⊢; omega)
    simp only [run_requests, hstep, hrest]
    simp [List.replicate_succ]
    omega

lemma run_requests_append (limit window : Nat) :
    ∀ (xs ys : List Nat) (e : RateWindow),
      run_requests limit window e (xs ++ ys) =
        ((run_requests limit window e xs).1 ++
           (run_requests limit window (run_requests limit window e xs).2 ys).1,
         (run_requests limit window (run_requests limit window e xs).2 ys).2) := by
  intro xs
  induction xs with
  | nil => intro ys e; simp [run_requests]
  | cons x rest ih =>
    intro ys e
    simp only [List.cons_append, run_requests, List.append_eq]
    rw [ih]

/-- C2: each rate-limit check resets the window when now minus window_start
strictly exceeds the window length, rejects without incrementing when the
count has reached the limit, and otherwise increments and admits; the
classes are general = 100 per 1 s and sensitive = 5 per 60 s.
Consequently, from a fresh entry, limit-many requests within the window are
all admitted, the next one is rejected, and a request arriving strictly
more than a window after window_start is admitted with the counter restarted
at 1. -/
theorem rate_limit_fixed_window (limit window : Nat) (hpos : 1 ≤ limit) :
    (general_limit = 100 ∧ general_window = 1 ∧
      auth_limit = 5 ∧ auth_window = 60) ∧
    (∀ (e : RateWindow) (now : Nat), now - e.window_start ≤ window →
      limit ≤ e.count → rate_limit_step limit window e now = (false, e)) ∧
    (∀ (e : RateWindow) (now : Nat), now - e.window_start ≤ window →
      e.count < limit →
      rate_limit_step limit window e now = (true, ⟨e.count + 1, e.window_start⟩)) ∧
    (∀ (e : RateWindow) (now : Nat), window < now - e.window_start →
      rate_limit_step limit window e now = (true, ⟨1, now⟩)) ∧
    (∀ (t0 : Nat) (ts : List Nat) (tlast : Nat), ts.length = limit →
      (∀ t ∈ ts, t - t0 ≤ window) → tlast - t0 ≤ window →
      run_requests limit window ⟨0, t0⟩ (ts ++ [tlast]) =
        (List.replicate limit true ++ [false], ⟨limit, t0⟩)) := by
  refine ⟨⟨rfl, rfl, rfl, rfl⟩, ?_, ?_, ?_, ?_⟩
  · intro e now hin hge
    unfold rate_limit_step
    rw [resetIfStale_of_in_window window e now hin]
    simp [hge]
  · intro e now hin hlt
    unfold rate_limit_step
    rw [resetIfStale_of_in_window window e now hin]
    simp [Nat.not_le.mpr hlt]
  · intro e now hstale
    unfold rate_limit_step resetIfStale
    simp only [hstale, if_true]
    have : ¬ limit ≤ 0 := by omega
    simp [this]
  · intro t0 ts tlast hlen hin hlast
    rw [run_requests_append]
    rw [run_requests_all_admitted limit window ts 0 t0 hin (by omega)]
    have hstep : rate_limit_step limit window ⟨limit, t0⟩ tlast =
        (false, ⟨limit, t0⟩) := by
      unfold rate_limit_step
      rw [resetIfStale_of_in_window window ⟨limit, t0⟩ tlast hlast]
      simp
    simp [run_requests, hlen, hstep]

/-- Witness for C2 at the sensitive class (limit 5, window 60): five
requests within the window admitted, the sixth rejected, and after the
window has passed a request is admitted with the counter restarted at 1. -/
theorem rate_limit_fixed_window_witness :
    run_requests 5 60 ⟨0, 0⟩ ([1, 2, 3, 4, 5] ++ [6]) =
      (List.replicate 5 true ++ [false], ⟨5, 0⟩) ∧
    rate_limit_step 5 60 ⟨5, 0⟩ 61 = (true, ⟨1, 61⟩) := by
  constructor
  · exact (rate_limit_fixed_window 5 60 (by decide)).2.2.2.2 0 [1, 2, 3, 4, 5] 6
      (by decide) (by decide) (by decide)
  · exact (rate_limit_fixed_window 5 60 (by decide)).2.2.2.1 ⟨5, 0⟩ 61 (by decide)

lemma get_decoding_key_miss (from_rsa : String → String → Option DecodingKey)
    (net : Except String (List JwkKey)) (cache : JwksCache) (now : Nat)
    (kid : String)
    (hmiss : cache.is_expired now = true ∨ KeyMap.get cache.keys kid = none) :
    get_decoding_key from_rsa net cache now kid =
      match fetch_jwks from_rsa net with
      | .error msg => ⟨.error msg, cache, 1⟩
      | .ok keys =>
        match KeyMap.get keys kid with
        | none => ⟨.error ("Key with kid " ++ kid ++ " not found"), cache, 1⟩
        | some key => ⟨.ok key, ⟨keys, now, cache.ttl⟩, 1⟩ := by
  have hhit : (if cache.is_expired now then none
      else KeyMap.get cache.keys kid) = (none : Option DecodingKey) := by
    rcases hmiss with h | h
    · simp [h]
    · cases cache.is_expired now <;> simp [h]
  simp only [get_decoding_key, hhit]

lemma get_decoding_key_hit (from_rsa : String → String → Option DecodingKey)
    (net : Except String (List JwkKey)) (cache : JwksCache) (now : Nat)
    (kid : String) (k : DecodingKey) (hfresh : cache.is_expired now = false)
    (hhit : KeyMap.get cache.keys kid = some k) :
    get_decoding_key from_rsa net cache now kid = ⟨.ok k, cache, 0⟩ := by
  simp only [get_decoding_key, hfresh]
  simp [hhit]

/-- C1 (amended): when the cache is not stale and holds kid, the key is
returned with no refresh; otherwise exactly one refresh is performed and
kid is looked up in the freshly fetched, signature-filtered set: when
found, that set replaces the cached one with its timestamp set to now and
the key is returned; when still absent the call fails with KeyNotFound and
the cached set and timestamp are left unchanged (the replacement does not
happen in that case). -/
theorem get_decoding_key_policy (from_rsa : String → String → Option DecodingKey)
    (net : Except String (List JwkKey)) (cache : JwksCache) (now : Nat)
    (kid : String) :
    (∀ k, cache.is_expired now = false → KeyMap.get cache.keys kid = some k →
      get_decoding_key from_rsa net cache now kid = ⟨.ok k, cache, 0⟩) ∧
    ((cache.is_expired now = true ∨ KeyMap.get cache.keys kid = none) →
      (get_decoding_key from_rsa net cache now kid).fetch_count = 1) ∧
    (∀ keys k, (cache.is_expired now = true ∨ KeyMap.get cache.keys kid = none) →
      fetch_jwks from_rsa net = .ok keys → KeyMap.get keys kid = some k →
      get_decoding_key from_rsa net cache now kid =
        ⟨.ok k, ⟨keys, now, cache.ttl⟩, 1⟩) ∧
    (∀ keys, (cache.is_expired now = true ∨ KeyMap.get cache.keys kid = none) →
      fetch_jwks from_rsa net = .ok keys → KeyMap.get keys kid = none →
      get_decoding_key from_rsa net cache now kid =
        ⟨.error ("Key with kid " ++ kid ++ " not found"), cache, 1⟩) := by
  refine ⟨?_, ?_, ?_, ?_⟩
  · intro k hfresh hhit
    exact get_decoding_key_hit from_rsa net cache now kid k hfresh hhit
  · intro hmiss
    rw [get_decoding_key_miss from_rsa net cache now kid hmiss]
    cases hf : fetch_jwks from_rsa net with
    | error msg => simp
    | ok keys => cases hk : KeyMap.get keys kid <;> simp [hk]
  · intro keys k hmiss hf hk
    rw [get_decoding_key_miss from_rsa net cache now kid hmiss, hf]
    simp [hk]
  · intro keys hmiss hf hk
    rw [get_decoding_key_miss from_rsa net cache now kid hmiss, hf]
    simp [hk]

/-- Witness for C1: a fresh-cache hit returns the cached key with no fetch,
and a miss on an empty cache refreshes once and installs the fetched set
with the new timestamp. -/
theorem get_decoding_key_policy_witness :
    get_decoding_key demo_from_rsa c1_net c5_cache 30 "kid-1" =
      ⟨.ok 7, c5_cache, 0⟩ ∧
    get_decoding_key demo_from_rsa c1_net c1_cache 0 "kid-b" =
      ⟨.ok 7, ⟨[("kid-b", 7)], 0, 100⟩, 1⟩ := by
  constructor
  · exact (get_decoding_key_policy demo_from_rsa c1_net c5_cache 30 "kid-1").1 7
      (by decide) (by decide)
  · exact (get_decoding_key_policy demo_from_rsa c1_net c1_cache 0 "kid-b").2.2.1
      [("kid-b", 7)] 7 (Or.inr (by decide)) (by decide) (by decide)

/-- Counterexample for C1 as stated: with an empty cache and a fetched
document that does not contain the requested kid, the code fails with
KeyNotFound but leaves the cache untouched, while the claimed behaviour
(replace the cached set with the fetched one, timestamp = now, before the
lookup) yields a different cache; the two outcomes differ. -/
theorem get_decoding_key_spec_divergence :
    get_decoding_key demo_from_rsa c1_net c1_cache 0 "kid-a" ≠
      get_decoding_key_spec demo_from_rsa c1_net c1_cache 0 "kid-a" ∧
    (get_decoding_key demo_from_rsa c1_net c1_cache 0 "kid-a").cache = c1_cache ∧
    (get_decoding_key_spec demo_from_rsa c1_net c1_cache 0 "kid-a").cache.keys =
      [("kid-b", 7)] := by
  refine ⟨by decide, by decide, by decide⟩

/-- C4: when the refresh fails with a network or parse error, the error
propagates unchanged, exactly one fetch was attempted, and the cached
KeySet is left entirely untouched (same keys, same timestamp); through
validate_token the same failure surfaces as a verification error, so the
token is never accepted. -/
theorem fetch_failure_preserves_cache
    (from_rsa : String → String → Option DecodingKey) (err keycloak_url : String)
    (cache : JwksCache) (now : Nat) (kid : String)
    (hmiss : cache.is_expired now = true ∨ KeyMap.get cache.keys kid = none) :
    get_decoding_key from_rsa (.error err) cache now kid =
      ⟨.error err, cache, 1⟩ ∧
    (∀ (t : Token) (a : Alg), t.header = some ⟨a, some kid⟩ →
      (validate_token from_rsa (.error err) keycloak_url cache now t).result =
        .error err ∧
      (validate_token from_rsa (.error err) keycloak_url cache now t).cache =
        cache) := by
  have h1 : get_decoding_key from_rsa (.error err) cache now kid =
      ⟨.error err, cache, 1⟩ := by
    rw [get_decoding_key_miss from_rsa (.error err) cache now kid hmiss]
    simp [fetch_jwks]
  refine ⟨h1, ?_⟩
  intro t a ht
  simp [validate_token, ht, h1]

/-- Witness for C4: a failed fetch on an empty cache propagates the error
and leaves the cache unchanged, and the corresponding token is rejected. -/
theorem fetch_failure_preserves_cache_witness :
    get_decoding_key demo_from_rsa (.error "connection refused") c1_cache 5
      "kid-z" = ⟨.error "connection refused", c1_cache, 1⟩ ∧
    (validate_token demo_from_rsa (.error "connection refused") c5_url c1_cache 5
        ⟨some ⟨.RS256, some "kid-z"⟩, c5_claims, fun _ => true⟩).result =
      .error "connection refused" := by
  refine ⟨?_, ?_⟩
  · exact (fetch_failure_preserves_cache demo_from_rsa "connection refused"
      c5_url c1_cache 5 "kid-z" (Or.inr (by decide))).1
  · exact ((fetch_failure_preserves_cache demo_from_rsa "connection refused"
      c5_url c1_cache 5 "kid-z" (Or.inr (by decide))).2
      ⟨some ⟨.RS256, some "kid-z"⟩, c5_claims, fun _ => true⟩ .RS256 rfl).1

/-- C5 (amended): validation fails for every token whose exp lies more than
the 60 second default leeway of the jsonwebtoken crate in the past at call
time, regardless of signature validity; an exp that is in the past by at
most the leeway is not rejected by the exp check (see the
counterexample). -/
theorem expired_token_rejected
    (from_rsa : String → String → Option DecodingKey)
    (net : Except String (List JwkKey)) (keycloak_url : String)
    (cache : JwksCache) (now : Nat) (t : Token)
    (hexp : t.claims.exp < now - leeway) :
    is_err (validate_token from_rsa net keycloak_url cache now t).result =
      true := by
  rcases ht : t.header with _ | h
  · simp [validate_token, ht, is_err]
  · rcases hk : h.kid with _ | kid
    · simp [validate_token, ht, hk, is_err]
    · rcases hr : (get_decoding_key from_rsa net cache now kid).result with msg | key
      · simp [validate_token, ht, hk, hr, is_err]
      · simp only [validate_token, ht, hk, hr]
        cases ha : h.alg <;> cases hs : t.sig_valid key <;>
          simp [decode_jwt, ht, ha, hs, hexp, is_err]

/-- Witness for C5 (amended): a token expired by more than the leeway is
rejected even though its signature verifies under the cached key. -/
theorem expired_token_rejected_witness :
    c5b_claims.exp < 100 - leeway ∧
    is_err (validate_token demo_from_rsa (.error "unused") c5_url c5_cache 100
      c5b_token).result = true :=
  ⟨by decide, expired_token_rejected demo_from_rsa (.error "unused") c5_url
    c5_cache 100 c5b_token (by decide)⟩

/-- Counterexample for C5 as stated: a token whose exp (29) is already in
the past at now = 30 is nevertheless accepted, because the jsonwebtoken
default leeway of 60 seconds makes the expiry check `exp < now - 60`; so
`exp in the past implies rejection` does not hold as stated. -/
theorem expired_token_leeway_acceptance :
    c5_claims.exp < 30 ∧
    (validate_token demo_from_rsa (.error "unused") c5_url c5_cache 30
      c5_token).result = .ok c5_claims := by
  exact ⟨by decide, by decide⟩

/-- C6: a token whose iss matches neither accepted issuer string (the
configured provider URL and its localhost alias) fails validation even
with a valid signature and unexpired timestamp, and a token whose iss
equals either accepted issuer passes the issuer check (validation succeeds
when every other check passes). -/
theorem issuer_check (from_rsa : String → String → Option DecodingKey)
    (net : Except String (List JwkKey)) (keycloak_url : String)
    (cache : JwksCache) (now : Nat) (t : Token) :
    (t.claims.iss ∉ accepted_issuers keycloak_url →
      is_err (validate_token from_rsa net keycloak_url cache now t).result =
        true) ∧
    (∀ kid key, t.header = some ⟨.RS256, some kid⟩ →
      cache.is_expired now = false → KeyMap.get cache.keys kid = some key →
      t.sig_valid key = true → ¬ (t.claims.exp < now - leeway) →
      t.claims.iss ∈ accepted_issuers keycloak_url →
      (validate_token from_rsa net keycloak_url cache now t).result =
        .ok t.claims) := by
  constructor
  · intro hiss
    rcases ht : t.header with _ | h
    · simp [validate_token, ht, is_err]
    · rcases hk : h.kid with _ | kid
      · simp [validate_token, ht, hk, is_err]
      · rcases hr : (get_decoding_key from_rsa net cache now kid).result with msg | key
        · simp [validate_token, ht, hk, hr, is_err]
        · simp only [validate_token, ht, hk, hr]
          by_cases hexp : t.claims.exp < now - leeway <;>
            cases ha : h.alg <;> cases hs : t.sig_valid key <;>
              simp [decode_jwt, ht, ha, hs, hexp, hiss, is_err]
  · intro kid key ht hfresh hhit hs hexp hiss
    have hlk := get_decoding_key_hit from_rsa net cache now kid key hfresh hhit
    simp only [validate_token, ht, hlk]
    simp [decode_jwt, ht, hs, hexp, hiss]

/-- Witness for C6: a token issued by an unrelated party is rejected, while
an otherwise-valid token issued under the localhost alias of the
configured URL is accepted. -/
theorem issuer_check_witness :
    is_err (validate_token demo_from_rsa (.error "unused") c5_url c5_cache 30
      c6_bad_token).result = true ∧
    (validate_token demo_from_rsa (.error "unused") c5_url c5_cache 30
      c6_token).result = .ok c6_claims := by
  constructor
  · exact (issuer_check demo_from_rsa (.error "unused") c5_url c5_cache 30
      c6_bad_token).1 (by decide)
  · exact (issuer_check demo_from_rsa (.error "unused") c5_url c5_cache 30
      c6_token).2 "kid-1" 7 rfl (by decide) (by decide) rfl (by decide)
      (by decide)

lemma auth_middleware_status (header : Option (List Nat))
    (validate : List Nat → Except String Claims) :
    (auth_middleware header validate).status = .error UNAUTHORIZED ∨
    ∃ c, (auth_middleware header validate).status = .ok c := by
  rcases header with _ | bytes
  · exact Or.inl rfl
  · cases h2 : header_to_str bytes with
    | none => exact Or.inl (by simp [auth_middleware, h2])
    | some s =>
      cases h3 : strip_bearer s with
      | none => exact Or.inl (by simp [auth_middleware, h2, h3])
      | some tok =>
        cases h4 : validate tok with
        | error msg => exact Or.inl (by simp [auth_middleware, h2, h3, h4])
        | ok c => exact Or.inr ⟨c, by simp [auth_middleware, h2, h3, h4]⟩

/-- C8: every verification failure, whatever its internal reason, produces
the same generic 401 unauthorized status; a rate-limit rejection (either
class) produces the distinct 429 too-many-requests status. -/
theorem uniform_rejection_statuses (header : Option (List Nat))
    (validate : List Nat → Except String Claims) (e : RateWindow) (now : Nat) :
    (∀ s, (auth_middleware header validate).status = .error s →
      s = UNAUTHORIZED) ∧
    (∀ s, (rate_limit_middleware e now).1 = .error s →
      s = TOO_MANY_REQUESTS) ∧
    (∀ s, (auth_rate_limit_middleware e now).1 = .error s →
      s = TOO_MANY_REQUESTS) ∧
    UNAUTHORIZED ≠ TOO_MANY_REQUESTS := by
  refine ⟨?_, ?_, ?_, by decide⟩
  · intro s h
    rcases auth_middleware_status header validate with h1 | ⟨c, h1⟩
    · rw [h1] at h
      injection h with h2
      omega
    · rw [h1] at h
      simp at h
  · intro s h
    unfold rate_limit_middleware at h
    rcases hrs : rate_limit_step general_limit general_window e now with ⟨b, e2⟩
    rw [hrs] at h
    cases b
    · injection h with h2; omega
    · simp at h
  · intro s h
    unfold auth_rate_limit_middleware at h
    rcases hrs : rate_limit_step auth_limit auth_window e now with ⟨b, e2⟩
    rw [hrs] at h
    cases b
    · injection h with h2; omega
    · simp at h

/-- Witness for C8: a missing-header failure carries status 401, a
rate-limit rejection carries status 429, and the two differ. -/
theorem uniform_rejection_statuses_witness :
    (401 : Nat) = UNAUTHORIZED ∧ (429 : Nat) = TOO_MANY_REQUESTS ∧
    UNAUTHORIZED ≠ TOO_MANY_REQUESTS := by
  refine ⟨?_, ?_, ?_⟩
  · exact (uniform_rejection_statuses none (fun _ => .error "boom")
      ⟨100, 0⟩ 0).1 401 rfl
  · exact (uniform_rejection_statuses none (fun _ => .error "boom")
      ⟨100, 0⟩ 0).2.1 429 rfl
  · exact (uniform_rejection_statuses none (fun _ => .error "boom")
      ⟨100, 0⟩ 0).2.2.2

/-- C9 (amended): a request whose Authorization header is absent, contains
a byte outside the set accepted by the header to-string check (visible
ASCII 32-126 or horizontal tab 9), or whose value does not begin with the
exact marker `Bearer `, is rejected with 401 before any token work: token
parsing, the key cache and the network are never touched.  (As stated the
claim is too strong: a value containing a tab is not visible ASCII, yet it
passes the to-string check and reaches token parsing; see the
counterexample.) -/
theorem header_gate (header : Option (List Nat))
    (validate : List Nat → Except String Claims) :
    (header = none →
      auth_middleware header validate = ⟨.error UNAUTHORIZED, false⟩) ∧
    (∀ bytes, header = some bytes →
      (bytes.all to_str_accepts = false ∨
        bearer_bytes.isPrefixOf bytes = false) →
      auth_middleware header validate = ⟨.error UNAUTHORIZED, false⟩) := by
  constructor
  · intro h
    subst h
    rfl
  · intro bytes hh hbad
    subst hh
    rcases hbad with hb | hb
    · simp [auth_middleware, header_to_str, hb]
    · cases hall : bytes.all to_str_accepts
      · simp [auth_middleware, header_to_str, hall]
      · simp [auth_middleware, header_to_str, hall, strip_bearer, hb]

/-- Witness for C9 (amended): a `Basic` credential and a missing header are
both rejected with 401 and validate_token is never invoked. -/
theorem header_gate_witness :
    auth_middleware (some basic_header) (fun _ => .ok c5_claims) =
      ⟨.error UNAUTHORIZED, false⟩ ∧
    auth_middleware none (fun _ => .ok c5_claims) =
      ⟨.error UNAUTHORIZED, false⟩ := by
  constructor
  · exact (header_gate (some basic_header) (fun _ => .ok c5_claims)).2
      basic_header rfl (Or.inr (by decide))
  · exact (header_gate none (fun _ => .ok c5_claims)).1 rfl

/-- Counterexample for C9 as stated: the header `Bearer ` followed by a
horizontal tab is not a visible-ASCII string, yet the middleware does not
return early: to_str accepts the tab, the Bearer marker matches, and
validate_token is invoked on the remaining bytes. -/
theorem header_gate_tab_divergence :
    ¬ visible_ascii_string tab_header ∧
    auth_middleware (some tab_header) (fun _ => .error "invalid token") =
      ⟨.error UNAUTHORIZED, true⟩ := by
  constructor
  · intro h
    exact absurd (h 9 (by decide)).1 (by decide)
  · rfl

lemma get_build_keys_aux (from_rsa : String → String → Option DecodingKey)
    (kid : String) :
    ∀ (ks : List JwkKey) (acc : KeyMap),
      (KeyMap.get (ks.foldl (fun m key =>
        if key.key_use = some "sig" ∨ key.key_use = none then
          match from_rsa key.n key.e with
          | some decoding_key => m.insert key.kid decoding_key
          | none => m
        else m) acc) kid).isSome = true ↔
      ((∃ key ∈ ks, key.kid = kid ∧
        (key.key_use = some "sig" ∨ key.key_use = none) ∧
        (from_rsa key.n key.e).isSome = true) ∨
       (KeyMap.get acc kid).isSome = true) := by
  intro ks
  induction ks with
  | nil => intro acc; simp
  | cons key rest ih =>
    intro acc
    simp only [List.foldl_cons]
    by_cases huse : key.key_use = some "sig" ∨ key.key_use = none
    · cases hrsa : from_rsa key.n key.e with
      | none =>
        rw [if_pos huse]
        rw [ih acc]
        simp [huse, hrsa]
      | some dk =>
        by_cases hkid : key.kid = kid
        · rw [if_pos huse]
          rw [ih (KeyMap.insert acc key.kid dk)]
          simp [KeyMap.insert, KeyMap.get, huse, hrsa, hkid]
        · rw [if_pos huse]
          rw [ih (KeyMap.insert acc key.kid dk)]
          simp [KeyMap.insert, KeyMap.get, huse, hrsa, hkid]
    · rw [if_neg huse]
      rw [ih acc]
      simp [huse]

/-- C10: a refresh whose document parses never aborts on an entry whose RSA
components do not convert; the resulting key set holds exactly the kids of
the entries whose use field is `sig` or absent and whose components
convert, so malformed entries are skipped while the rest are kept. -/
theorem jwks_filter_skips_bad_keys
    (from_rsa : String → String → Option DecodingKey) (ks : List JwkKey) :
    fetch_jwks from_rsa (.ok ks) = .ok (build_keys from_rsa ks) ∧
    ∀ kid, (KeyMap.get (build_keys from_rsa ks) kid).isSome = true ↔
      ∃ key ∈ ks, key.kid = kid ∧
        (key.key_use = some "sig" ∨ key.key_use = none) ∧
        (from_rsa key.n key.e).isSome = true := by
  refine ⟨rfl, ?_⟩
  intro kid
  unfold build_keys
  rw [get_build_keys_aux from_rsa kid ks []]
  simp [KeyMap.get]

/-- Witness for C10: with one good signature key, one key whose RSA
components fail to convert, and one encryption-use key, the refresh
succeeds and the key set holds exactly the good key. -/
theorem jwks_filter_skips_bad_keys_witness :
    fetch_jwks c10_from_rsa (.ok c10_keys) =
      .ok (build_keys c10_from_rsa c10_keys) ∧
    (KeyMap.get (build_keys c10_from_rsa c10_keys) "good").isSome = true ∧
    (KeyMap.get (build_keys c10_from_rsa c10_keys) "broken").isSome = false ∧
    (KeyMap.get (build_keys c10_from_rsa c10_keys) "enc").isSome = false := by
  refine ⟨(jwks_filter_skips_bad_keys c10_from_rsa c10_keys).1, ?_, by decide,
    by decide⟩
  exact ((jwks_filter_skips_bad_keys c10_from_rsa c10_keys).2 "good").mpr
    ⟨⟨"good", some "sig", "n1", "e1"⟩, by decide, by decide, by decide,
     by decide⟩

/-- C7 (amended): in the assembled app the general rate limiter and the
token verifier are layered on every route under the protected prefix
/api/v1 (and on no other route — see the counterexample for the claimed
all-routes coverage), with the rate limiter outermost: when it rejects, the
request ends with 429 and the token-verification layer is never reached,
whatever the verification outcome would have been.  The sensitive limiter
is layered on the authentication route /auth/login. -/
theorem gateway_composition :
    (∀ r ∈ app, ("/api/v1".data).isPrefixOf r.path.data = true →
      Mw.rate_limit_general ∈ r.chain ∧ Mw.token_verify ∈ r.chain ∧
      ∀ b : Bool, run_chain false true b r.chain =
        (some TOO_MANY_REQUESTS, false)) ∧
    (∀ r ∈ app, r.path = "/auth/login" → Mw.rate_limit_auth ∈ r.chain) ∧
    RouteEntry.mk "POST" "/auth/login"
      [.trace_http, .cors, .body_limit, .metrics_mw, .request_logging,
       .rate_limit_auth] ∈ app := by
  decide

/-- Witness for C7: the protected POST /feedbacks route carries both
gateway layers, and with the general limiter rejecting, the outcome is 429
with token verification never reached. -/
theorem gateway_composition_witness :
    Mw.rate_limit_general ∈
      [Mw.trace_http, .cors, .body_limit, .metrics_mw, .request_logging,
       .rate_limit_general, .token_verify] ∧
    run_chain false true true
      [Mw.trace_http, .cors, .body_limit, .metrics_mw, .request_logging,
       .rate_limit_general, .token_verify] =
      (some TOO_MANY_REQUESTS, false) := by
  constructor
  · exact (gateway_composition.1
      ⟨"POST", "/api/v1/feedbacks",
       [.trace_http, .cors, .body_limit, .metrics_mw, .request_logging,
        .rate_limit_general, .token_verify]⟩ (by decide) (by decide)).1
  · exact (gateway_composition.1
      ⟨"POST", "/api/v1/feedbacks",
       [.trace_http, .cors, .body_limit, .metrics_mw, .request_logging,
        .rate_limit_general, .token_verify]⟩ (by decide) (by decide)).2.2 true

/-- Counterexample for C7 as stated: the health and login routes of the
assembled app carry no general-class rate limiter, so the general limiter
is not applied to every route. -/
theorem gateway_general_limiter_gap :
    RouteEntry.mk "GET" "/health"
      [.trace_http, .cors, .body_limit, .metrics_mw, .request_logging] ∈ app ∧
    Mw.rate_limit_general ∉
      ([.trace_http, .cors, .body_limit, .metrics_mw, .request_logging] :
        List Mw) ∧
    RouteEntry.mk "POST" "/auth/login"
      [.trace_http, .cors, .body_limit, .metrics_mw, .request_logging,
       .rate_limit_auth] ∈ app ∧
    Mw.rate_limit_general ∉
      ([.trace_http, .cors, .body_limit, .metrics_mw, .request_logging,
        .rate_limit_auth] : List Mw) := by
  decide

lemma filter_update_not_true {M : Nat} (pc : Fin M → ReqPc) (i : Fin M)
    (v : ReqPc) (hv : v ≠ .done true) (hi : pc i ≠ .done true) :
    Finset.univ.filter (fun j => Function.update pc i v j = .done true) =
      Finset.univ.filter (fun j => pc j = .done true) := by
  ext j
  simp only [Finset.mem_filter, Finset.mem_univ, true_and]
  rcases eq_or_ne j i with rfl | hne
  · rw [Function.update_same]
    exact iff_of_false hv hi
  · rw [Function.update_noteq hne]

lemma filter_update_true {M : Nat} (pc : Fin M → ReqPc) (i : Fin M)
    (hi : pc i ≠ .done true) :
    Finset.univ.filter (fun j => Function.update pc i (.done true) j = .done true) =
      insert i (Finset.univ.filter (fun j => pc j = .done true)) := by
  ext j
  simp only [Finset.mem_filter, Finset.mem_univ, true_and, Finset.mem_insert]
  rcases eq_or_ne j i with rfl | hne
  · rw [Function.update_same]
    simp
  · rw [Function.update_noteq hne]
    simp [hne]

lemma ConcInv_init (limit : Nat) {M : Nat} (ws : Nat) :
    ConcInv limit ws (ConcInit M ws) := by
  refine ⟨rfl, ?_, Nat.zero_le _, ?_, ?_⟩
  · simp [ConcInit, admitted_set]
  · intro i c h
    exact ReqPc.noConfusion h
  · intro i h
    exact ReqPc.noConfusion h

lemma ConcInv_step {limit window : Nat} {M : Nat} {ts : Fin M → Nat} {ws : Nat}
    (hts : ∀ i, ts i ≤ ws + window) {s s2 : ConcState M}
    (hinv : ConcInv limit ws s) (hstep : ConcStep limit window ts s s2) :
    ConcInv limit ws s2 := by
  have hce : s.entry.count =
      (Finset.univ.filter (fun j => s.pc j = .done true)).card := hinv.count_eq
  cases hstep with
  | acquire i hpc hlock =>
    have hreset : resetIfStale window s.entry (ts i) = s.entry := by
      unfold resetIfStale
      have h1 : ¬ (window < ts i - s.entry.window_start) := by
        rw [hinv.ws_eq]
        have := hts i
        omega
      simp [h1]
    rw [hreset]
    refine ⟨hinv.ws_eq, ?_, hinv.count_le, ?_, ?_⟩
    · show s.entry.count = _
      simp only [admitted_set]
      rw [filter_update_not_true s.pc i _ (by simp) (by rw [hpc]; simp)]
      exact hce
    · intro j c hj
      rcases eq_or_ne j i with rfl | hne
      · simp only [Function.update_same] at hj
        injection hj with h
        exact ⟨rfl, h.symm⟩
      · simp only [Function.update_noteq hne] at hj
        have h1 := (hinv.checked_lock j c hj).1
        rw [hlock] at h1
        exact Option.noConfusion h1
    · intro j hj
      rcases eq_or_ne j i with rfl | hne
      · simp only [Function.update_same] at hj
        exact ReqPc.noConfusion hj
      · simp only [Function.update_noteq hne] at hj
        exact hinv.reject_full j hj
  | grant i c hpc hlock hlt =>
    have hc : c = s.entry.count := (hinv.checked_lock i c hpc).2
    refine ⟨hinv.ws_eq, ?_, ?_, ?_, ?_⟩
    · show s.entry.count + 1 = _
      simp only [admitted_set]
      rw [filter_update_true s.pc i (by rw [hpc]; simp)]
      rw [Finset.card_insert_of_not_mem (by simp [hpc])]
      omega
    · show s.entry.count + 1 ≤ limit
      omega
    · intro j c2 hj
      rcases eq_or_ne j i with rfl | hne
      · simp only [Function.update_same] at hj
        exact ReqPc.noConfusion hj
      · simp only [Function.update_noteq hne] at hj
        have h1 := (hinv.checked_lock j c2 hj).1
        rw [hlock] at h1
        injection h1 with h2
        exact absurd h2.symm hne
    · intro j hj
      rcases eq_or_ne j i with rfl | hne
      · simp only [Function.update_same] at hj
        simp at hj
      · simp only [Function.update_noteq hne] at hj
        have h1 := hinv.reject_full j hj
        omega
  | reject i c hpc hlock hge =>
    have hc : c = s.entry.count := (hinv.checked_lock i c hpc).2
    have hfull : s.entry.count = limit := le_antisymm hinv.count_le (by omega)
    refine ⟨hinv.ws_eq, ?_, hinv.count_le, ?_, fun j _ => hfull⟩
    · show s.entry.count = _
      simp only [admitted_set]
      rw [filter_update_not_true s.pc i _ (by simp) (by rw [hpc]; simp)]
      exact hce
    · intro j c2 hj
      rcases eq_or_ne j i with rfl | hne
      · simp only [Function.update_same] at hj
        exact ReqPc.noConfusion hj
      · simp only [Function.update_noteq hne] at hj
        have h1 := (hinv.checked_lock j c2 hj).1
        rw [hlock] at h1
        injection h1 with h2
        exact absurd h2.symm hne

lemma ConcReach_congr {limit window : Nat} {M : Nat} {ts : Fin M → Nat}
    {ws : Nat} {s s2 : ConcState M} (h : ConcReach limit window ts ws s)
    (heq : s = s2) : ConcReach limit window ts ws s2 := heq ▸ h

lemma ConcInv_reach {limit window : Nat} {M : Nat} {ts : Fin M → Nat}
    {ws : Nat} (hts : ∀ i, ts i ≤ ws + window) {s : ConcState M}
    (h : ConcReach limit window ts ws s) : ConcInv limit ws s := by
  induction h with
  | refl => exact ConcInv_init limit ws
  | tail _ hstep ih => exact ConcInv_step hts ih hstep

/-- C3: for M concurrent requests from one client against a fresh entry,
with every observed timestamp inside the window and M exceeding the limit,
every complete interleaving of the micro-steps admits exactly limit
requests and rejects the other M - limit: the guard held across the
read-check-increment prevents any over-admission. -/
theorem concurrent_rate_limit_exact (limit window ws : Nat) {M : Nat}
    (ts : Fin M → Nat) (hts : ∀ i, ts i ≤ ws + window) (s : ConcState M)
    (hreach : ConcReach limit window ts ws s)
    (hdone : ∀ i, ∃ b, s.pc i = .done b) (hM : limit < M) :
    (admitted_set s).card = limit ∧ (rejected_set s).card = M - limit := by
  have hinv := ConcInv_reach hts hreach
  have hpart : (admitted_set s).card + (rejected_set s).card = M := by
    have hrew : rejected_set s =
        Finset.univ.filter (fun i => ¬ (s.pc i = .done true)) := by
      ext j
      simp only [rejected_set, Finset.mem_filter, Finset.mem_univ, true_and]
      rcases hdone j with ⟨b, hb⟩
      cases b <;> simp [hb]
    rw [hrew]
    have h2 := Finset.filter_card_add_filter_neg_card_eq_card
      (s := (Finset.univ : Finset (Fin M)))
      (p := fun i => s.pc i = .done true)
    simpa [admitted_set] using h2
  by_cases hrej : ∃ j, s.pc j = .done false
  · rcases hrej with ⟨j, hj⟩
    have hfull := hinv.reject_full j hj
    have hadm : (admitted_set s).card = limit := by
      rw [← hinv.count_eq]
      exact hfull
    exact ⟨hadm, by omega⟩
  · exfalso
    push_neg at hrej
    have hall : ∀ i, s.pc i = .done true := by
      intro i
      rcases hdone i with ⟨b, hb⟩
      cases b
      · exact absurd hb (hrej i)
      · exact hb
    have huniv : admitted_set s = Finset.univ := by
      ext j
      simp [admitted_set, hall j]
    have hcard : (admitted_set s).card = M := by
      rw [huniv]
      simp
    have hle := hinv.count_le
    rw [hinv.count_eq, hcard] at hle
    omega

/-- Witness for C3: two concurrent requests with limit 1 — request 0 takes
the guard and admits, then request 1 takes the guard, observes the full
counter and rejects — ending with exactly one admission and one
rejection. -/
theorem concurrent_rate_limit_exact_witness :
    (admitted_set conc_demo).card = 1 ∧ (rejected_set conc_demo).card = 2 - 1 := by
  have r1 := Relation.ReflTransGen.single
    (show ConcStep 1 60 (fun _ : Fin 2 => 0) (ConcInit 2 0) _ from
      ConcStep.acquire (ConcInit 2 0) 0 rfl rfl)
  have r2 := Relation.ReflTransGen.tail r1
    (ConcStep.grant _ 0 0 (by decide) rfl (by decide))
  have r3 := Relation.ReflTransGen.tail r2
    (ConcStep.acquire _ 1 (by decide) rfl)
  have r4 := Relation.ReflTransGen.tail r3
    (ConcStep.reject _ 1 1 (by decide) rfl (by decide))
  have hreach : ConcReach 1 60 (fun _ : Fin 2 => 0) 0 conc_demo := by
    apply ConcReach_congr r4
    unfold conc_demo
    congr 1
    all_goals decide
  exact concurrent_rate_limit_exact 1 60 0 (fun _ => 0) (fun i => by simp)
    conc_demo hreach (fun i => by fin_cases i <;> exact ⟨_, rfl⟩) (by omega)

end Gjallarhorn
